import Mathlib

/-!
Shallow embedding of the FLOPs estimator of the repository
(the function `flops(model)` in the notebook).

The estimator walks the ordered list of layers of a Keras model.
For a `Flatten` layer it prints a zero-cost line and continues; for a
`Dense` layer it reads the incoming feature size and the number of units,
counts `2 * input_units * output_units` multiply-accumulate operations,
adds `output_units` for a ReLU activation or `5 * output_units` for a
Softmax activation, prints the breakdown and adds the layer's count to the
running total; any other layer kind falls through the `if/elif` chain with
no output and no contribution.  The function returns the running total.

The embedding represents a layer by the data the estimator reads from it,
the per-layer printed block by a `LayerReport` record, and a call to the
estimator by `flopsLoop`, which threads the output stream (the list of
per-layer report blocks already emitted) and the running total through the
loop exactly as the Python code does.
-/

namespace FlopsEstimator

/-- Activation tag of a Dense layer, as the estimator compares it:
`relu` and `softmax` are recognised, anything else falls through. -/
inductive Activation where
  | none
  | relu
  | softmax
  | other (name : String)
deriving DecidableEq

/-- The data of one layer that the estimator reads: a `Flatten` layer
(whose input shape is never inspected), a `Dense` layer with its incoming
feature size (`layer.input_shape[-1]`), its number of units (`layer.units`)
and its activation, or a layer of any other kind (e.g. `Conv2D`), of which
the estimator inspects nothing. -/
inductive Layer where
  | flatten (input_shape : List Int)
  | dense (input_units output_units : Int) (activation : Activation)
  | other (kind : String)
deriving DecidableEq

/-- Operation count of one Dense layer:
`flops = 2 * input_units * output_units`, then `+ output_units` when the
activation is ReLU, `+ 5 * output_units` when it is Softmax, nothing
otherwise. -/
def denseFlops (input_units output_units : Int) (act : Activation) : Int :=
  let f := 2 * input_units * output_units
  match act with
  | Activation.relu => f + output_units
  | Activation.softmax => f + 5 * output_units
  | _ => f

/-- One per-layer block of the estimator's printed trace: the enumeration
index, the layer kind named by the matched branch, the operation count the
layer contributes, and the activation remark of the block. -/
structure LayerReport where
  index : Nat
  kind : String
  ops : Int
  note : String
deriving DecidableEq

/-- The block printed for a Flatten layer: no FLOPs counted. -/
def flattenReport (i : Nat) : LayerReport :=
  ⟨i, "Flatten", 0, "no FLOPs counted."⟩

/-- The activation remark printed inside a Dense block. -/
def activationRemark : Activation → String
  | Activation.relu => "+ReLU activation FLOPs"
  | Activation.softmax => "+Softmax activation FLOPs (approx)"
  | _ => ""

/-- The block printed for a Dense layer. -/
def denseReport (i : Nat) (a b : Int) (act : Activation) : LayerReport :=
  ⟨i, "Dense", denseFlops a b act, activationRemark act⟩

/-- The block the estimator emits for one layer at enumeration index `i`:
a report for Flatten and Dense layers, nothing for any other kind. -/
def reportLayer : Nat → Layer → Option LayerReport
  | i, Layer.flatten _ => some (flattenReport i)
  | i, Layer.dense a b act => some (denseReport i a b act)
  | _, Layer.other _ => none

/-- The estimator's loop, one step per layer: `i` is the enumeration
index, `total` the running total, `out` the output stream already emitted.
A Flatten layer appends its block and continues; a Dense layer appends its
block and adds its count to the total; any other kind does nothing. -/
def flopsLoop : Nat → Int → List LayerReport → List Layer → List LayerReport × Int
  | _, total, out, [] => (out, total)
  | i, total, out, Layer.flatten _ :: ls =>
      flopsLoop (i + 1) total (out ++ [flattenReport i]) ls
  | i, total, out, Layer.dense a b act :: ls =>
      flopsLoop (i + 1) (total + denseFlops a b act) (out ++ [denseReport i a b act]) ls
  | i, total, out, Layer.other _ :: ls =>
      flopsLoop (i + 1) total out ls

/-- What one call of the estimator produces: the ordered per-layer trace
it printed and the total it returns. -/
structure EstimationResult where
  reports : List LayerReport
  total : Int
deriving DecidableEq

/-- One call of the estimator on a model, starting from index 0, total 0
and an empty output stream. -/
def flops (layers : List Layer) : EstimationResult :=
  let p := flopsLoop 0 0 [] layers
  ⟨p.1, p.2⟩

/-- The per-layer trace of one estimator call. -/
def flopsReports (layers : List Layer) : List LayerReport :=
  (flops layers).reports

/-- The total an estimator call returns. -/
def flopsTotal (layers : List Layer) : Int :=
  (flops layers).total

/-- A layer kind the estimator has a rule for (Flatten or Dense). -/
def supportedLayer : Layer → Bool
  | Layer.other _ => false
  | _ => true

/-- The data-model invariant on a layer: a Dense descriptor carries
strictly positive sizes; other layers are unconstrained. -/
def validLayer : Layer → Bool
  | Layer.dense a b _ => decide (0 < a) && decide (0 < b)
  | _ => true

/-- Reference form of the trace the loop emits from enumeration index `i`. -/
def traceFrom : Nat → List Layer → List LayerReport
  | _, [] => []
  | i, Layer.flatten _ :: ls => flattenReport i :: traceFrom (i + 1) ls
  | i, Layer.dense a b act :: ls => denseReport i a b act :: traceFrom (i + 1) ls
  | i, Layer.other _ :: ls => traceFrom (i + 1) ls

/-- Reference form of the total the loop accumulates. -/
def totalOps : List Layer → Int
  | [] => 0
  | Layer.flatten _ :: ls => totalOps ls
  | Layer.dense a b act :: ls => denseFlops a b act + totalOps ls
  | Layer.other _ :: ls => totalOps ls

lemma flopsLoop_eq (ls : List Layer) :
    ∀ (i : Nat) (t : Int) (out : List LayerReport),
      flopsLoop i t out ls = (out ++ traceFrom i ls, t + totalOps ls) := by
  induction ls with
  | nil => intro i t out; simp [flopsLoop, traceFrom, totalOps]
  | cons l ls ih =>
    intro i t out
    cases l with
    | flatten s => simp [flopsLoop, traceFrom, totalOps, ih]
    | dense a b act => simp [flopsLoop, traceFrom, totalOps, ih, add_assoc]
    | other k => simp [flopsLoop, traceFrom, totalOps, ih]

lemma flopsReports_eq (layers : List Layer) :
    flopsReports layers = traceFrom 0 layers := by
  simp [flopsReports, flops, flopsLoop_eq]

lemma flopsTotal_eq (layers : List Layer) :
    flopsTotal layers = totalOps layers := by
  simp [flopsTotal, flops, flopsLoop_eq]

lemma totalOps_append (xs ys : List Layer) :
    totalOps (xs ++ ys) = totalOps xs + totalOps ys := by
  induction xs with
  | nil => simp [totalOps]
  | cons l ls ih => cases l <;> simp [totalOps, ih, add_assoc]

lemma traceFrom_append (xs ys : List Layer) :
    ∀ i : Nat, traceFrom i (xs ++ ys) = traceFrom i xs ++ traceFrom (i + xs.length) ys := by
  induction xs with
  | nil => intro i; simp [traceFrom]
  | cons l ls ih =>
    intro i
    have h2 : i + (ls.length + 1) = i + 1 + ls.length := by omega
    cases l <;> simp [traceFrom, ih, List.length_cons, h2]

lemma traceFrom_map_ops (ls : List Layer) :
    ∀ i j : Nat,
      (traceFrom i ls).map LayerReport.ops = (traceFrom j ls).map LayerReport.ops := by
  induction ls with
  | nil => intro i j; rfl
  | cons l ls ih =>
    intro i j
    cases l with
    | flatten s => simp [traceFrom, flattenReport, ih (i + 1) (j + 1)]
    | dense a b act => simp [traceFrom, denseReport, ih (i + 1) (j + 1)]
    | other k => simpa [traceFrom] using ih (i + 1) (j + 1)

lemma totalOps_eq_sum (ls : List Layer) :
    ∀ i : Nat, totalOps ls = ((traceFrom i ls).map LayerReport.ops).sum := by
  induction ls with
  | nil => intro i; simp [totalOps, traceFrom]
  | cons l ls ih =>
    intro i
    cases l with
    | flatten s => simpa [totalOps, traceFrom, flattenReport] using ih (i + 1)
    | dense a b act => simp [totalOps, traceFrom, denseReport, ih (i + 1)]
    | other k => simpa [totalOps, traceFrom] using ih (i + 1)

lemma traceFrom_index_lb (ls : List Layer) :
    ∀ (i : Nat) (r : LayerReport), r ∈ traceFrom i ls → i ≤ r.index := by
  induction ls with
  | nil => intro i r h; simp [traceFrom] at h
  | cons l ls ih =>
    intro i r h
    cases l with
    | flatten s =>
      rcases List.mem_cons.mp (by simpa [traceFrom] using h) with h0 | h1
      · subst h0; simp [flattenReport]
      · have := ih (i + 1) r h1; omega
    | dense a b act =>
      rcases List.mem_cons.mp (by simpa [traceFrom] using h) with h0 | h1
      · subst h0; simp [denseReport]
      · have := ih (i + 1) r h1; omega
    | other k =>
      have := ih (i + 1) r (by simpa [traceFrom] using h); omega

lemma traceFrom_index_ub (ls : List Layer) :
    ∀ (i : Nat) (r : LayerReport), r ∈ traceFrom i ls → r.index < i + ls.length := by
  induction ls with
  | nil => intro i r h; simp [traceFrom] at h
  | cons l ls ih =>
    intro i r h
    cases l with
    | flatten s =>
      rcases List.mem_cons.mp (by simpa [traceFrom] using h) with h0 | h1
      · subst h0; simp [flattenReport]
      · have := ih (i + 1) r h1; simp [List.length_cons]; omega
    | dense a b act =>
      rcases List.mem_cons.mp (by simpa [traceFrom] using h) with h0 | h1
      · subst h0; simp [denseReport]
      · have := ih (i + 1) r h1; simp [List.length_cons]; omega
    | other k =>
      have := ih (i + 1) r (by simpa [traceFrom] using h)
      simp [List.length_cons]; omega

lemma traceFrom_length_of_supported (ls : List Layer) :
    ∀ i : Nat, (∀ l ∈ ls, supportedLayer l = true) →
      (traceFrom i ls).length = ls.length := by
  induction ls with
  | nil => intro i _; rfl
  | cons l ls ih =>
    intro i h
    have htl : ∀ l ∈ ls, supportedLayer l = true :=
      fun x hx => h x (List.mem_cons_of_mem _ hx)
    cases l with
    | flatten s => simp [traceFrom, ih (i + 1) htl]
    | dense a b act => simp [traceFrom, ih (i + 1) htl]
    | other k =>
      have := h (Layer.other k) (List.mem_cons_self _ _)
      simp [supportedLayer] at this

lemma traceFrom_get_of_supported (ls : List Layer) :
    ∀ i : Nat, (∀ l ∈ ls, supportedLayer l = true) →
      ∀ (j : Nat) (l : Layer), ls[j]? = some l →
        (traceFrom i ls)[j]? = reportLayer (i + j) l := by
  induction ls with
  | nil => intro i _ j l hj; simp at hj
  | cons l0 ls ih =>
    intro i h j l hj
    have htl : ∀ l ∈ ls, supportedLayer l = true :=
      fun x hx => h x (List.mem_cons_of_mem _ hx)
    cases j with
    | zero =>
      have hl : l0 = l := by simpa using hj
      subst hl
      cases l0 with
      | flatten s => simp [traceFrom, reportLayer]
      | dense a b act => simp [traceFrom, reportLayer]
      | other k =>
        have := h (Layer.other k) (List.mem_cons_self _ _)
        simp [supportedLayer] at this
    | succ j =>
      have hj' : ls[j]? = some l := by simpa using hj
      have harith : i + (j + 1) = (i + 1) + j := by omega
      cases l0 with
      | flatten s =>
        simpa [traceFrom, harith] using ih (i + 1) htl j l hj'
      | dense a b act =>
        simpa [traceFrom, harith] using ih (i + 1) htl j l hj'
      | other k =>
        have := h (Layer.other k) (List.mem_cons_self _ _)
        simp [supportedLayer] at this

lemma denseFlops_nonneg (a b : Int) (act : Activation)
    (ha : 0 < a) (hb : 0 < b) : 0 ≤ denseFlops a b act := by
  cases act <;> simp [denseFlops] <;> nlinarith

lemma totalOps_nonneg (ls : List Layer)
    (h : ∀ l ∈ ls, validLayer l = true) : 0 ≤ totalOps ls := by
  induction ls with
  | nil => simp [totalOps]
  | cons l ls ih =>
    have htl : ∀ l ∈ ls, validLayer l = true :=
      fun x hx => h x (List.mem_cons_of_mem _ hx)
    cases l with
    | flatten s => simpa [totalOps] using ih htl
    | dense a b act =>
      have hv := h (Layer.dense a b act) (List.mem_cons_self _ _)
      simp [validLayer] at hv
      have h1 := denseFlops_nonneg a b act hv.1 hv.2
      have h2 := ih htl
      simp [totalOps]
      omega
    | other k => simpa [totalOps] using ih htl

/-- Claim C1: for every Dense layer with input size `a` and output size
`b`, the per-layer cost contributed to the estimator's total is
`2 * a * b` plus an activation term: `+0` for activation None, `+b` for
ReLU, `+5*b` for Softmax and `+0` for `Other(name)`. -/
theorem dense_cost_rule (a b : Int) (name : String) :
    flopsTotal [Layer.dense a b Activation.none] = 2 * a * b ∧
    flopsTotal [Layer.dense a b Activation.relu] = 2 * a * b + b ∧
    flopsTotal [Layer.dense a b Activation.softmax] = 2 * a * b + 5 * b ∧
    flopsTotal [Layer.dense a b (Activation.other name)] = 2 * a * b := by
  refine ⟨?_, ?_, ?_, ?_⟩ <;> simp [flopsTotal_eq, totalOps, denseFlops]

/-- Claim C2: for every input layer sequence, the total of the estimation
result equals the sum of the individual per-layer operation counts it
reports for that sequence. -/
theorem total_eq_sum_of_reports (layers : List Layer) :
    flopsTotal layers = ((flopsReports layers).map LayerReport.ops).sum := by
  rw [flopsTotal_eq, flopsReports_eq]
  exact totalOps_eq_sum layers 0

/-- Claim C3: on `[Flatten, Dense(784→100, ReLU), Dense(100→100, ReLU),
Dense(100→10, Softmax)]` the estimator reports per-layer costs
`[0, 156900, 20100, 2050]` and returns total `179050`. -/
theorem scenarioA_eval :
    ((flopsReports [Layer.flatten [28, 28],
        Layer.dense 784 100 Activation.relu,
        Layer.dense 100 100 Activation.relu,
        Layer.dense 100 10 Activation.softmax]).map LayerReport.ops
      = [0, 156900, 20100, 2050]) ∧
    flopsTotal [Layer.flatten [28, 28],
        Layer.dense 784 100 Activation.relu,
        Layer.dense 100 100 Activation.relu,
        Layer.dense 100 10 Activation.softmax] = 179050 := by
  decide

/-- Claim C6: a Flatten layer contributes exactly 0 operations to the
total, whatever its shape and wherever it sits in the sequence, and the
trace contains an explicit zero-cost entry for it at its enumeration
index rather than omitting it. -/
theorem flatten_zero_cost (shape : List Int) (xs ys : List Layer) :
    flopsTotal (xs ++ Layer.flatten shape :: ys) = flopsTotal (xs ++ ys) ∧
    (⟨xs.length, "Flatten", 0, "no FLOPs counted."⟩ : LayerReport) ∈
      flopsReports (xs ++ Layer.flatten shape :: ys) := by
  constructor
  · simp [flopsTotal_eq]
    have h1 := totalOps_append xs (Layer.flatten shape :: ys)
    have h2 := totalOps_append xs ys
    simp [totalOps] at h1
    omega
  · rw [flopsReports_eq, traceFrom_append xs (Layer.flatten shape :: ys) 0]
    have : (⟨xs.length, "Flatten", 0, "no FLOPs counted."⟩ : LayerReport)
        ∈ traceFrom (0 + xs.length) (Layer.flatten shape :: ys) := by
      simp [traceFrom, flattenReport]
    exact List.mem_append_right _ this

/-- Claim C8: on the empty layer sequence the estimator returns an empty
report list and total 0 (it is a total function, so no error is
signalled). -/
theorem empty_model_eval :
    flopsReports ([] : List Layer) = [] ∧ flopsTotal ([] : List Layer) = 0 :=
  ⟨rfl, rfl⟩

/-- Claim C9: the estimator is deterministic and free of ambient state:
whatever output stream `out` was already emitted before a call, the call
appends exactly the canonical trace of its input and returns the
canonical total, and a second call on the same input appends the same
trace again and returns the same total. -/
theorem estimator_deterministic (out : List LayerReport) (layers : List Layer) :
    (flopsLoop 0 0 out layers).1 = out ++ flopsReports layers ∧
    (flopsLoop 0 0 out layers).2 = flopsTotal layers ∧
    flopsLoop 0 0 ((flopsLoop 0 0 out layers).1) layers =
      ((flopsLoop 0 0 out layers).1 ++ flopsReports layers, flopsTotal layers) := by
  simp [flopsLoop_eq, flopsReports_eq, flopsTotal_eq]

/-- Claim C4, counterexample: a `Conv2D` layer falls through the
`if/elif` chain, so the estimator emits no trace entry at all for it —
the report is empty (the layer is silently omitted), not flagged as an
unrecognized kind; a following Dense layer is still costed. -/
theorem unsupported_kind_cex :
    flopsReports [Layer.other "Conv2D"] = [] ∧
    flopsTotal [Layer.other "Conv2D", Layer.dense 2 3 Activation.none] = 12 ∧
    flopsReports [Layer.other "Conv2D", Layer.dense 2 3 Activation.none]
      = [⟨1, "Dense", 12, ""⟩] := by
  decide

/-- Claim C4, amended: a layer whose kind is neither Dense nor Flatten
never aborts estimation — it contributes 0 to the total and the remaining
layers are costed normally — but it is silently omitted from the
per-layer report (no entry is emitted at its position) rather than being
flagged as an unrecognized kind. -/
theorem unsupported_kind_graceful (xs ys : List Layer) (k : String) :
    flopsTotal (xs ++ Layer.other k :: ys) = flopsTotal (xs ++ ys) ∧
    (flopsReports (xs ++ Layer.other k :: ys)).map LayerReport.ops =
      (flopsReports (xs ++ ys)).map LayerReport.ops ∧
    ∀ r ∈ flopsReports (xs ++ Layer.other k :: ys), r.index ≠ xs.length := by
  refine ⟨?_, ?_, ?_⟩
  · simp [flopsTotal_eq]
    have h1 := totalOps_append xs (Layer.other k :: ys)
    have h2 := totalOps_append xs ys
    simp [totalOps] at h1
    omega
  · rw [flopsReports_eq, flopsReports_eq,
      traceFrom_append xs (Layer.other k :: ys) 0, traceFrom_append xs ys 0]
    simp [traceFrom, List.map_append]
    exact traceFrom_map_ops ys (xs.length + 1) xs.length
  · intro r hr
    rw [flopsReports_eq, traceFrom_append xs (Layer.other k :: ys) 0] at hr
    rcases List.mem_append.mp hr with h1 | h2
    · have := traceFrom_index_ub xs 0 r h1
      omega
    · have h2' : r ∈ traceFrom (0 + xs.length + 1) ys := by
        simpa [traceFrom] using h2
      have := traceFrom_index_lb ys (0 + xs.length + 1) r h2'
      omega

/-- Claim C5, counterexample: the estimator performs no size validation.
A Dense descriptor with `output_size = 0` is silently costed 0 and gets
an ordinary Dense entry in the report (no rejection marker of any kind),
and a Dense descriptor with a negative size produces a negative
contribution. -/
theorem invalid_dense_cex :
    flopsTotal [Layer.dense 3 0 Activation.none] = 0 ∧
    flopsReports [Layer.dense 3 0 Activation.none] = [⟨0, "Dense", 0, ""⟩] ∧
    flopsTotal [Layer.dense 3 (-2) Activation.none] = -12 := by
  decide

/-- Claim C5, amended: the estimator never checks `input_size` or
`output_size`: for every Dense descriptor, including those with zero or
negative sizes, it applies the cost formula unconditionally and emits the
ordinary Dense report entry, so a zero-size layer is silently coerced to
cost 0 and negative sizes can contribute negatively, with no visible
marker. -/
theorem invalid_dense_unvalidated (a b : Int) (act : Activation)
    (_h : a ≤ 0 ∨ b ≤ 0) :
    flopsTotal [Layer.dense a b act] = denseFlops a b act ∧
    flopsReports [Layer.dense a b act] = [denseReport 0 a b act] := by
  refine ⟨?_, ?_⟩ <;> simp [flopsTotal_eq, flopsReports_eq, totalOps, traceFrom]

/-- Witness for the amended claim C5, at the concrete invalid descriptor
`Dense(3 → 0, ReLU)`. -/
theorem invalid_dense_unvalidated_witness :
    ((3 : Int) ≤ 0 ∨ (0 : Int) ≤ 0) ∧
    (flopsTotal [Layer.dense 3 0 Activation.relu]
        = denseFlops 3 0 Activation.relu ∧
      flopsReports [Layer.dense 3 0 Activation.relu]
        = [denseReport 0 3 0 Activation.relu]) :=
  ⟨Or.inr (by decide),
    invalid_dense_unvalidated 3 0 Activation.relu (Or.inr (by decide))⟩

/-- Claim C7, counterexample: the report list is not always as long as
the input — an unsupported layer produces no entry, so a three-layer
input containing an `LSTM` layer yields only two report entries. -/
theorem report_length_cex :
    (flopsReports [Layer.flatten [], Layer.other "LSTM",
        Layer.dense 2 3 Activation.none]).length = 2 ∧
    ([Layer.flatten [], Layer.other "LSTM",
        Layer.dense 2 3 Activation.none] : List Layer).length = 3 := by
  decide

/-- Claim C7, amended: when every layer of the input is of a supported
kind (Dense or Flatten), the report list has exactly the length of the
input, and the entry at position `i` is the report of the descriptor at
position `i`; layers of unsupported kinds are dropped from the report, so
in general the report list is shorter than the input. -/
theorem report_alignment_of_supported (layers : List Layer)
    (h : ∀ l ∈ layers, supportedLayer l = true) :
    (flopsReports layers).length = layers.length ∧
    ∀ (i : Nat) (l : Layer), layers[i]? = some l →
      (flopsReports layers)[i]? = reportLayer i l := by
  rw [flopsReports_eq]
  constructor
  · exact traceFrom_length_of_supported layers 0 h
  · intro i l hi
    simpa using traceFrom_get_of_supported layers 0 h i l hi

/-- Witness for the amended claim C7, at the concrete supported model
`[Flatten((28, 28)), Dense(784 → 50, ReLU)]`. -/
theorem report_alignment_witness :
    (∀ l ∈ ([Layer.flatten [28, 28],
        Layer.dense 784 50 Activation.relu] : List Layer),
      supportedLayer l = true) ∧
    ((flopsReports [Layer.flatten [28, 28],
          Layer.dense 784 50 Activation.relu]).length
        = ([Layer.flatten [28, 28],
            Layer.dense 784 50 Activation.relu] : List Layer).length ∧
      ∀ (i : Nat) (l : Layer),
        ([Layer.flatten [28, 28],
            Layer.dense 784 50 Activation.relu] : List Layer)[i]? = some l →
          (flopsReports [Layer.flatten [28, 28],
              Layer.dense 784 50 Activation.relu])[i]? = reportLayer i l) :=
  ⟨by decide, report_alignment_of_supported _ (by decide)⟩

/-- Claim C10, counterexample: the total is not always nonnegative, and
appending a layer can decrease it — a Dense descriptor with a negative
size contributes negatively, taking the total of the empty sequence from
0 down to -2. -/
theorem total_nonneg_cex :
    flopsTotal ([] : List Layer) = 0 ∧
    flopsTotal (([] : List Layer) ++ [Layer.dense (-1) 1 Activation.none]) = -2 := by
  decide

/-- Claim C10, amended: the total is additive over concatenation of layer
sequences; when the appended layers satisfy the data-model invariant
(strictly positive Dense sizes) the total never decreases, and under the
invariant it is nonnegative — but descriptors with negative sizes can
make it negative or decreasing. -/
theorem total_additive (xs ys : List Layer) :
    flopsTotal (xs ++ ys) = flopsTotal xs + flopsTotal ys ∧
    ((∀ l ∈ xs, validLayer l = true) → 0 ≤ flopsTotal xs) ∧
    ((∀ l ∈ ys, validLayer l = true) → flopsTotal xs ≤ flopsTotal (xs ++ ys)) := by
  have hadd : flopsTotal (xs ++ ys) = flopsTotal xs + flopsTotal ys := by
    simp [flopsTotal_eq, totalOps_append]
  refine ⟨hadd, ?_, ?_⟩
  · intro h
    simpa [flopsTotal_eq] using totalOps_nonneg xs h
  · intro h
    have := totalOps_nonneg ys h
    rw [hadd, flopsTotal_eq ys]
    omega

/-- Witness for the amended claim C10, at concrete valid sequences. -/
theorem total_additive_witness :
    (∀ l ∈ ([Layer.dense 2 3 Activation.relu] : List Layer),
      validLayer l = true) ∧
    0 ≤ flopsTotal [Layer.dense 2 3 Activation.relu] ∧
    flopsTotal [Layer.flatten []] ≤
      flopsTotal ([Layer.flatten []] ++ [Layer.dense 2 3 Activation.relu]) :=
  ⟨by decide,
    (total_additive [Layer.dense 2 3 Activation.relu] []).2.1 (by decide),
    (total_additive [Layer.flatten []] [Layer.dense 2 3 Activation.relu]).2.2
      (by decide)⟩

end FlopsEstimator
